import Mathlib

/-!
Verification of the CSS selector builder from `src/05-objects-tasks.js`.

The builder keeps an accumulated selector string `value` and an element
counter `elementCount`.  Validation (`isError`) scans the accumulated string
for marker substrings.  The six part-appending methods return fresh
instances; `combine` and `stringify`, however, assign to fields of `this`
in the source, so they are embedded as functions that also return the
receiver's (and, for `combine`, the arguments') post-call state.
-/

namespace CoreJs101

/-- Prefix test on character lists (JS `String.startsWith` at a position). -/
def isPre (pat l : List Char) : Bool :=
  match pat, l with
  | [], _ => true
  | _ :: _, [] => false
  | a :: ps, b :: ls => a == b && isPre ps ls

/-- Substring occurrence test on character lists. -/
def hasSub (pat l : List Char) : Bool :=
  match l with
  | [] => pat.isEmpty
  | _ :: t => isPre pat l || hasSub pat t

/-- JS `String.prototype.includes`: `pat` occurs as a contiguous substring of `s`. -/
def strIncludes (s pat : String) : Bool := hasSub pat.data s.data

/-- The two error messages thrown by `SelectorBuilder.isError`. -/
inductive SelectorError where
  | duplicateUniquePart
  | outOfOrder
deriving Repr, DecidableEq

/-- JS `Array.prototype.indexOf` (−1 when absent). -/
def jsIndexOf (l : List String) (s : String) : Int :=
  match l.findIdx? (fun x => x == s) with
  | some i => (i : Int)
  | none => -1

/-- The `elementsSymbols` array of the constructor. -/
def elementsSymbols : List String := ["", "#", ".", "[", ":", "::"]

/-- State of a `SelectorBuilder` instance: the `value` and `elementCount`
fields set by the constructor (`elementsSymbols` is the same constant for
every instance and is kept as the global above). -/
structure SelectorBuilder where
  value : String
  elementCount : Nat
deriving Repr, DecidableEq

namespace SelectorBuilder

/-- `isError(selector)`: `none` when the method returns normally, `some e`
for the error thrown.  Mirrors the source: the duplicate check
(`isElementRepeats || isIdOrPseudoRepeats`) runs first; then every symbol
strictly after `selector` in `elementsSymbols` is scanned for in `value`. -/
def isError (b : SelectorBuilder) (selector : String) : Option SelectorError :=
  if (selector == "" && decide (0 < b.elementCount))
      || ((selector == "#" || selector == "::") && strIncludes b.value selector) then
    some SelectorError.duplicateUniquePart
  else if (elementsSymbols.drop ((jsIndexOf elementsSymbols selector + 1).toNat)).any
      (fun sel => strIncludes b.value sel) then
    some SelectorError.outOfOrder
  else
    none

/-- `element(v)`: `this.isError('')` then a fresh instance. -/
def element (b : SelectorBuilder) (v : String) : Except SelectorError SelectorBuilder :=
  match b.isError "" with
  | some e => Except.error e
  | none => Except.ok ⟨b.value ++ v, b.elementCount + 1⟩

/-- `id(v)`: `this.isError('#')` then a fresh instance. -/
def id (b : SelectorBuilder) (v : String) : Except SelectorError SelectorBuilder :=
  match b.isError "#" with
  | some e => Except.error e
  | none => Except.ok ⟨b.value ++ "#" ++ v, b.elementCount⟩

/-- `class(v)`: `this.isError('.')` then a fresh instance. -/
def «class» (b : SelectorBuilder) (v : String) : Except SelectorError SelectorBuilder :=
  match b.isError "." with
  | some e => Except.error e
  | none => Except.ok ⟨b.value ++ "." ++ v, b.elementCount⟩

/-- `attr(v)`: `this.isError('[')` then a fresh instance wrapping `v` in brackets. -/
def attr (b : SelectorBuilder) (v : String) : Except SelectorError SelectorBuilder :=
  match b.isError "[" with
  | some e => Except.error e
  | none => Except.ok ⟨b.value ++ "[" ++ v ++ "]", b.elementCount⟩

/-- `pseudoClass(v)`: `this.isError(':')` then a fresh instance. -/
def pseudoClass (b : SelectorBuilder) (v : String) : Except SelectorError SelectorBuilder :=
  match b.isError ":" with
  | some e => Except.error e
  | none => Except.ok ⟨b.value ++ ":" ++ v, b.elementCount⟩

/-- `pseudoElement(v)`: `this.isError('::')` then a fresh instance. -/
def pseudoElement (b : SelectorBuilder) (v : String) : Except SelectorError SelectorBuilder :=
  match b.isError "::" with
  | some e => Except.error e
  | none => Except.ok ⟨b.value ++ "::" ++ v, b.elementCount⟩

/-- `stringify()`: returns `this.value` but first assigns
`this.elementCount = 0`.  Result: (returned string, receiver state after
the call). -/
def stringify (b : SelectorBuilder) : String × SelectorBuilder :=
  (b.value, ⟨b.value, 0⟩)

/-- `combine(selector1, combiner, selector2)`: calls `stringify()` on both
arguments (each of which zeroes that argument's `elementCount`), builds the
joined string through `this.value`, resets `this.value` to `''` and returns
`new SelectorBuilder(result)` (whose `elementCount` defaults to 0).
Result: (returned fresh instance, receiver state, `selector1` state,
`selector2` state after the call). -/
def combine (b selector1 : SelectorBuilder) (combiner : String) (selector2 : SelectorBuilder) :
    SelectorBuilder × SelectorBuilder × SelectorBuilder × SelectorBuilder :=
  let r1 := selector1.stringify
  let r2 := selector2.stringify
  let result := r1.1 ++ " " ++ combiner ++ " " ++ r2.1
  (⟨result, 0⟩, ⟨"", b.elementCount⟩, r1.2, r2.2)

end SelectorBuilder

/-- The exported facade: a root builder with empty value and zero count. -/
def cssSelectorBuilder : SelectorBuilder := ⟨"", 0⟩

/-! ### Basic facts about the substring scan -/

theorem isPre_nil (l : List Char) : isPre [] l = true := rfl

theorem isPre_cons_nil (a : Char) (ps : List Char) : isPre (a :: ps) [] = false := rfl

theorem isPre_cons_cons (a b : Char) (ps ls : List Char) :
    isPre (a :: ps) (b :: ls) = (a == b && isPre ps ls) := rfl

theorem hasSub_nil_str (pat : List Char) : hasSub pat [] = pat.isEmpty := rfl

theorem hasSub_cons (pat : List Char) (b : Char) (t : List Char) :
    hasSub pat (b :: t) = (isPre pat (b :: t) || hasSub pat t) := rfl

theorem hasSub_nil (l : List Char) : hasSub [] l = true := by
  induction l with
  | nil => rfl
  | cons a t ih => simp [hasSub_cons, isPre_nil]

theorem isPre_hasSub {pat l : List Char} (h : isPre pat l = true) : hasSub pat l = true := by
  cases l with
  | nil => cases pat with
    | nil => rfl
    | cons a ps => rw [isPre_cons_nil] at h; exact absurd h (by simp)
  | cons b t => simp [hasSub_cons, h]

theorem hasSub_singleton {c : Char} {l : List Char} : hasSub [c] l = true ↔ c ∈ l := by
  induction l with
  | nil => simp [hasSub_nil_str, List.isEmpty]
  | cons b t ih =>
    rw [hasSub_cons, isPre_cons_cons]
    simp only [isPre_nil, Bool.and_true, Bool.or_eq_true, beq_iff_eq, List.mem_cons]
    rw [ih]

theorem isPre_append {pat A : List Char} (B : List Char) (h : isPre pat A = true) :
    isPre pat (A ++ B) = true := by
  induction pat generalizing A with
  | nil => exact isPre_nil _
  | cons a ps ih =>
    cases A with
    | nil => rw [isPre_cons_nil] at h; exact absurd h (by simp)
    | cons b t =>
      rw [List.cons_append, isPre_cons_cons]
      rw [isPre_cons_cons, Bool.and_eq_true] at h
      simp only [Bool.and_eq_true]
      exact ⟨h.1, ih h.2⟩

theorem hasSub_append_right {pat A : List Char} (B : List Char) (h : hasSub pat A = true) :
    hasSub pat (A ++ B) = true := by
  induction A with
  | nil =>
    rw [hasSub_nil_str, List.isEmpty_iff] at h
    subst h
    exact hasSub_nil B
  | cons a t ih =>
    rw [List.cons_append, hasSub_cons]
    rw [hasSub_cons, Bool.or_eq_true] at h
    rcases h with h | h
    · have h' := isPre_append B h
      rw [List.cons_append] at h'
      simp [h']
    · simp [ih h]

theorem hasSub_append_left {pat B : List Char} (A : List Char) (h : hasSub pat B = true) :
    hasSub pat (A ++ B) = true := by
  induction A with
  | nil => exact h
  | cons a t ih => simp [hasSub_cons, ih]

theorem hasSub_pair_mem {c : Char} {l : List Char} (h : hasSub [c, c] l = true) : c ∈ l := by
  induction l with
  | nil => simp [hasSub_nil_str, List.isEmpty] at h
  | cons b t ih =>
    rw [hasSub_cons, Bool.or_eq_true] at h
    rcases h with h | h
    · rw [isPre_cons_cons, Bool.and_eq_true, beq_iff_eq] at h
      exact List.mem_cons.mpr (Or.inl h.1)
    · exact List.mem_cons.mpr (Or.inr (ih h))

theorem hasSub_pair_count {c : Char} {l : List Char} (h : hasSub [c, c] l = true) :
    2 ≤ l.count c := by
  induction l with
  | nil => simp [hasSub_nil_str, List.isEmpty] at h
  | cons b t ih =>
    rw [hasSub_cons, Bool.or_eq_true] at h
    rcases h with h | h
    · rw [isPre_cons_cons, Bool.and_eq_true, beq_iff_eq] at h
      obtain ⟨hb, h2⟩ := h
      cases t with
      | nil => rw [isPre_cons_nil] at h2; exact absurd h2 (by simp)
      | cons b' t' =>
        rw [isPre_cons_cons, Bool.and_eq_true, beq_iff_eq] at h2
        have hb' : c = b' := h2.1
        rw [List.count_cons, List.count_cons, ← hb, ← hb']
        simp
    · have := ih h
      rw [List.count_cons]
      omega

theorem hasSub_pair_append {c : Char} {A B : List Char}
    (h : hasSub [c, c] (A ++ B) = true) :
    hasSub [c, c] A = true ∨ hasSub [c, c] B = true ∨
      (A.getLast? = some c ∧ B.head? = some c) := by
  induction A with
  | nil => exact Or.inr (Or.inl h)
  | cons a t ih =>
    rw [List.cons_append, hasSub_cons, Bool.or_eq_true] at h
    rcases h with h | h
    · rw [isPre_cons_cons, Bool.and_eq_true, beq_iff_eq] at h
      obtain ⟨hac, h2⟩ := h
      cases t with
      | nil =>
        cases B with
        | nil => rw [List.nil_append, isPre_cons_nil] at h2; exact absurd h2 (by simp)
        | cons b' B' =>
          rw [List.nil_append, isPre_cons_cons, Bool.and_eq_true, beq_iff_eq] at h2
          exact Or.inr (Or.inr ⟨by simp [← hac], by simp [← h2.1]⟩)
      | cons a' t' =>
        rw [List.cons_append, isPre_cons_cons, Bool.and_eq_true, beq_iff_eq] at h2
        refine Or.inl (isPre_hasSub ?_)
        rw [isPre_cons_cons, isPre_cons_cons]
        simp [isPre_nil, ← hac, ← h2.1]
    · rcases ih h with h' | h' | ⟨hl, hh⟩
      · left
        rw [hasSub_cons]
        simp [h']
      · exact Or.inr (Or.inl h')
      · refine Or.inr (Or.inr ⟨?_, hh⟩)
        cases t with
        | nil => simp at hl
        | cons x xs => simpa using hl

/-! ### String-level bridges -/

theorem strData_append (s t : String) : (s ++ t).data = s.data ++ t.data := by
  cases s
  cases t
  rfl

theorem strIncludes_iff_hasSub (s pat : String) :
    strIncludes s pat = hasSub pat.data s.data := rfl

theorem strIncludes_char (s : String) (c : Char) :
    strIncludes s (String.mk [c]) = true ↔ c ∈ s.data :=
  hasSub_singleton

/-! ### The six part kinds and a uniform view of the appending methods -/

/-- The six part kinds, in the fixed order of `elementsSymbols`. -/
inductive Kind where
  | element
  | id
  | cls
  | attr
  | pseudoClass
  | pseudoElement
deriving Repr, DecidableEq

/-- Position of a kind in the fixed order. -/
def kindIndex : Kind → Nat
  | .element => 0
  | .id => 1
  | .cls => 2
  | .attr => 3
  | .pseudoClass => 4
  | .pseudoElement => 5

/-- Marker symbol (element of `elementsSymbols`) of each kind. -/
def symbolOf : Kind → String
  | .element => ""
  | .id => "#"
  | .cls => "."
  | .attr => "["
  | .pseudoClass => ":"
  | .pseudoElement => "::"

/-- Dispatch to the appending method of a given kind. -/
def SelectorBuilder.apply (k : Kind) (b : SelectorBuilder) (v : String) :
    Except SelectorError SelectorBuilder :=
  match k with
  | .element => b.element v
  | .id => b.id v
  | .cls => b.«class» v
  | .attr => b.attr v
  | .pseudoClass => b.pseudoClass v
  | .pseudoElement => b.pseudoElement v

/-- Run a chain of appending calls, stopping at the first error. -/
def runAppends (b : SelectorBuilder) : List (Kind × String) → Except SelectorError SelectorBuilder
  | [] => Except.ok b
  | p :: ps =>
    match SelectorBuilder.apply p.1 b p.2 with
    | Except.error e => Except.error e
    | Except.ok b' => runAppends b' ps

/-- What one successful appending call adds to the accumulated value
(element: the fragment alone; id `#v`; class `.v`; attribute `[v]`;
pseudo-class `:v`; pseudo-element `::v`). -/
def renderPart : Kind × String → String
  | (.element, v) => v
  | (.id, v) => "#" ++ v
  | (.cls, v) => "." ++ v
  | (.attr, v) => "[" ++ v ++ "]"
  | (.pseudoClass, v) => ":" ++ v
  | (.pseudoElement, v) => "::" ++ v

/-- Concatenation of the rendered parts, in application order. -/
def concatParts : List (Kind × String) → String
  | [] => ""
  | p :: ps => renderPart p ++ concatParts ps

/-- Duplicate condition of the validation algorithm: element with a
positive count, or id / pseudo-element whose marker already occurs in the
accumulated value. -/
def dupCond (k : Kind) (b : SelectorBuilder) : Bool :=
  match k with
  | .element => decide (0 < b.elementCount)
  | .id => strIncludes b.value "#"
  | .pseudoElement => strIncludes b.value "::"
  | _ => false

/-- Some marker of a kind strictly after `k` occurs in the accumulated value. -/
def laterMarkerPresent (k : Kind) (b : SelectorBuilder) : Bool :=
  (elementsSymbols.drop (kindIndex k + 1)).any (fun sel => strIncludes b.value sel)

/-! ### Characterizations of the six methods -/

theorem element_eq (b : SelectorBuilder) (v : String) :
    b.element v =
      if 0 < b.elementCount then Except.error SelectorError.duplicateUniquePart
      else if strIncludes b.value "#" || strIncludes b.value "." || strIncludes b.value "[" ||
          strIncludes b.value ":" || strIncludes b.value "::" then
        Except.error SelectorError.outOfOrder
      else Except.ok ⟨b.value ++ v, b.elementCount + 1⟩ := by
  unfold SelectorBuilder.element SelectorBuilder.isError
  by_cases hd : 0 < b.elementCount
  · simp [hd]
  · cases h1 : strIncludes b.value "#" <;> cases h2 : strIncludes b.value "." <;>
      cases h3 : strIncludes b.value "[" <;> cases h4 : strIncludes b.value ":" <;>
      cases h5 : strIncludes b.value "::" <;>
      simp [hd, h1, h2, h3, h4, h5, jsIndexOf, elementsSymbols]

theorem id_eq (b : SelectorBuilder) (v : String) :
    b.id v =
      if strIncludes b.value "#" then Except.error SelectorError.duplicateUniquePart
      else if strIncludes b.value "." || strIncludes b.value "[" ||
          strIncludes b.value ":" || strIncludes b.value "::" then
        Except.error SelectorError.outOfOrder
      else Except.ok ⟨b.value ++ "#" ++ v, b.elementCount⟩ := by
  unfold SelectorBuilder.id SelectorBuilder.isError
  cases h1 : strIncludes b.value "#" <;> cases h2 : strIncludes b.value "." <;>
    cases h3 : strIncludes b.value "[" <;> cases h4 : strIncludes b.value ":" <;>
    cases h5 : strIncludes b.value "::" <;>
    simp [h1, h2, h3, h4, h5, jsIndexOf, elementsSymbols]

theorem class_eq (b : SelectorBuilder) (v : String) :
    b.«class» v =
      if strIncludes b.value "[" || strIncludes b.value ":" || strIncludes b.value "::" then
        Except.error SelectorError.outOfOrder
      else Except.ok ⟨b.value ++ "." ++ v, b.elementCount⟩ := by
  unfold SelectorBuilder.«class» SelectorBuilder.isError
  cases h3 : strIncludes b.value "[" <;> cases h4 : strIncludes b.value ":" <;>
    cases h5 : strIncludes b.value "::" <;>
    simp [h3, h4, h5, jsIndexOf, elementsSymbols]

theorem attr_eq (b : SelectorBuilder) (v : String) :
    b.attr v =
      if strIncludes b.value ":" || strIncludes b.value "::" then
        Except.error SelectorError.outOfOrder
      else Except.ok ⟨b.value ++ "[" ++ v ++ "]", b.elementCount⟩ := by
  unfold SelectorBuilder.attr SelectorBuilder.isError
  cases h4 : strIncludes b.value ":" <;> cases h5 : strIncludes b.value "::" <;>
    simp [h4, h5, jsIndexOf, elementsSymbols]

theorem pseudoClass_eq (b : SelectorBuilder) (v : String) :
    b.pseudoClass v =
      if strIncludes b.value "::" then Except.error SelectorError.outOfOrder
      else Except.ok ⟨b.value ++ ":" ++ v, b.elementCount⟩ := by
  unfold SelectorBuilder.pseudoClass SelectorBuilder.isError
  cases h5 : strIncludes b.value "::" <;>
    simp [h5, jsIndexOf, elementsSymbols]

theorem pseudoElement_eq (b : SelectorBuilder) (v : String) :
    b.pseudoElement v =
      if strIncludes b.value "::" then Except.error SelectorError.duplicateUniquePart
      else Except.ok ⟨b.value ++ "::" ++ v, b.elementCount⟩ := by
  unfold SelectorBuilder.pseudoElement SelectorBuilder.isError
  cases h5 : strIncludes b.value "::" <;>
    simp [h5, jsIndexOf, elementsSymbols]

/-! ### More substring helpers -/

theorem isPre_self (pat : List Char) : isPre pat pat = true := by
  induction pat with
  | nil => rfl
  | cons a ps ih => simp [isPre_cons_cons, ih]

theorem hasSub_self (pat : List Char) : hasSub pat pat = true := by
  cases pat with
  | nil => rfl
  | cons a ps => exact isPre_hasSub (isPre_self _)

theorem hasSub_single_false {s : List Char} {c : Char} (h : c ∉ s) :
    hasSub [c] s = false := by
  cases hx : hasSub [c] s
  · rfl
  · exact absurd (hasSub_singleton.mp hx) h

theorem hasSub_pair_false {s : List Char} {c : Char} (h : c ∉ s) :
    hasSub [c, c] s = false := by
  cases hx : hasSub [c, c] s
  · rfl
  · exact absurd (hasSub_pair_mem hx) h

theorem hasSub_pair_false_of_count {s : List Char} {c : Char} (h : s.count c ≤ 1) :
    hasSub [c, c] s = false := by
  cases hx : hasSub [c, c] s
  · rfl
  · have := hasSub_pair_count hx
    omega

theorem strIncludes_append_right {s : String} (t : String) {p : String}
    (h : strIncludes s p = true) : strIncludes (s ++ t) p = true := by
  rw [strIncludes_iff_hasSub, strData_append]
  exact hasSub_append_right _ h

theorem strIncludes_part (a m c : String) : strIncludes (a ++ m ++ c) m = true := by
  rw [strIncludes_iff_hasSub, strData_append, strData_append]
  exact hasSub_append_right _ (hasSub_append_left _ (hasSub_self _))

/-! ### Facts about `apply` and `runAppends` -/

theorem apply_ok {k : Kind} {b : SelectorBuilder} {v : String} {b' : SelectorBuilder}
    (h : SelectorBuilder.apply k b v = Except.ok b') :
    b'.value = b.value ++ renderPart (k, v) ∧
    b'.elementCount = b.elementCount + (if k = Kind.element then 1 else 0) := by
  cases k <;>
    simp only [SelectorBuilder.apply, element_eq, id_eq, class_eq, attr_eq, pseudoClass_eq,
      pseudoElement_eq] at h <;>
    (split at h <;> try split at h) <;>
    first
      | (injection h with h2; subst h2; constructor <;> simp [renderPart, String.append_assoc])
      | injection h

theorem runAppends_includes {ops : List (Kind × String)} {b b' : SelectorBuilder} {p : String}
    (h : runAppends b ops = Except.ok b') (hp : strIncludes b.value p = true) :
    strIncludes b'.value p = true := by
  induction ops generalizing b with
  | nil =>
    simp only [runAppends, Except.ok.injEq] at h
    exact h ▸ hp
  | cons q qs ih =>
    rw [runAppends] at h
    cases happ : SelectorBuilder.apply q.1 b q.2 with
    | error e => rw [happ] at h; exact absurd h (by simp)
    | ok b₁ =>
      rw [happ] at h
      refine ih h ?_
      rw [(apply_ok happ).1]
      exact strIncludes_append_right _ hp

theorem runAppends_count_le {ops : List (Kind × String)} {b b' : SelectorBuilder}
    (h : runAppends b ops = Except.ok b') : b.elementCount ≤ b'.elementCount := by
  induction ops generalizing b with
  | nil =>
    simp only [runAppends, Except.ok.injEq] at h
    exact h ▸ Nat.le_refl _
  | cons q qs ih =>
    rw [runAppends] at h
    cases happ : SelectorBuilder.apply q.1 b q.2 with
    | error e => rw [happ] at h; exact absurd h (by simp)
    | ok b₁ =>
      rw [happ] at h
      have h1 := (apply_ok happ).2
      have h2 := ih h
      omega

theorem runAppends_element_pos {ops : List (Kind × String)} {b b' : SelectorBuilder}
    (h : runAppends b ops = Except.ok b')
    (hmem : Kind.element ∈ ops.map Prod.fst) : 0 < b'.elementCount := by
  induction ops generalizing b with
  | nil => simp at hmem
  | cons q qs ih =>
    rw [runAppends] at h
    cases happ : SelectorBuilder.apply q.1 b q.2 with
    | error e => rw [happ] at h; exact absurd h (by simp)
    | ok b₁ =>
      rw [happ] at h
      rw [List.map_cons, List.mem_cons] at hmem
      rcases hmem with hq | hqs
      · have h1 := (apply_ok happ).2
        have h2 := runAppends_count_le h
        rw [← hq] at h1
        simp at h1
        omega
      · exact ih h hqs

theorem runAppends_pe_includes {ops : List (Kind × String)} {b b' : SelectorBuilder}
    (h : runAppends b ops = Except.ok b')
    (hmem : Kind.pseudoElement ∈ ops.map Prod.fst) :
    strIncludes b'.value "::" = true := by
  induction ops generalizing b with
  | nil => simp at hmem
  | cons q qs ih =>
    rw [runAppends] at h
    cases happ : SelectorBuilder.apply q.1 b q.2 with
    | error e => rw [happ] at h; exact absurd h (by simp)
    | ok b₁ =>
      rw [happ] at h
      rw [List.map_cons, List.mem_cons] at hmem
      rcases hmem with hq | hqs
      · refine runAppends_includes h ?_
        have h1 := (apply_ok happ).1
        rw [← hq] at h1
        have : renderPart (Kind.pseudoElement, q.2) = "::" ++ q.2 := rfl
        rw [this] at h1
        rw [h1, ← String.append_assoc]
        exact strIncludes_part _ _ _
      · exact ih h hqs

/-! ### Sufficient conditions for a chain of appends to succeed -/

/-- Marker characters a fragment of kind `k` must not contain for every
later append in an increasing chain to keep succeeding (single-character
markers of kinds after `k`; a pseudo-class fragment must also avoid `:`
so that no accidental `::` arises next to its own marker). -/
def avoidChars : Kind → List Char
  | .element => ['#', '.', '[', ':']
  | .id => ['.', '[', ':']
  | .cls => ['[', ':']
  | .attr => [':']
  | .pseudoClass => [':']
  | .pseudoElement => []

/-- Characters that must not occur in the accumulated value for the
appending call of kind `k` to pass its scans (the `::` scan for
`pseudoElement` is handled through a colon count instead). -/
def avoidVal : Kind → List Char
  | .element => ['#', '.', '[', ':']
  | .id => ['#', '.', '[', ':']
  | .cls => ['[', ':']
  | .attr => [':']
  | .pseudoClass => [':']
  | .pseudoElement => []

/-- The fragment contains none of the characters of `avoidChars k`. -/
def fragOk (k : Kind) (v : String) : Bool :=
  (avoidChars k).all (fun c => !(hasSub [c] v.data))

theorem frag_notin {k : Kind} {v : String} {c : Char} (hf : fragOk k v = true)
    (hc : c ∈ avoidChars k) : c ∉ v.data := by
  unfold fragOk at hf
  rw [List.all_eq_true] at hf
  have h := hf c hc
  intro hmem
  rw [hasSub_singleton.mpr hmem] at h
  exact absurd h (by simp)

theorem frag_count {k : Kind} {v : String} {c : Char} (hf : fragOk k v = true)
    (hc : c ∈ avoidChars k) : v.data.count c = 0 :=
  List.count_eq_zero.mpr (frag_notin hf hc)

theorem renderData_element (v : String) : (renderPart (Kind.element, v)).data = v.data := rfl

theorem renderData_id (v : String) : (renderPart (Kind.id, v)).data = '#' :: v.data := by
  show ("#" ++ v).data = _
  rw [strData_append]
  rfl

theorem renderData_cls (v : String) : (renderPart (Kind.cls, v)).data = '.' :: v.data := by
  show ("." ++ v).data = _
  rw [strData_append]
  rfl

theorem renderData_attr (v : String) :
    (renderPart (Kind.attr, v)).data = '[' :: (v.data ++ [']']) := by
  show ("[" ++ v ++ "]").data = _
  rw [strData_append, strData_append]
  rfl

theorem renderData_pc (v : String) : (renderPart (Kind.pseudoClass, v)).data = ':' :: v.data := by
  show (":" ++ v).data = _
  rw [strData_append]
  rfl

theorem renderData_pe (v : String) :
    (renderPart (Kind.pseudoElement, v)).data = ':' :: ':' :: v.data := by
  show ("::" ++ v).data = _
  rw [strData_append]
  rfl

/-- One appending call succeeds when the accumulated value avoids the
candidate kind's scan characters (with a colon count standing in for the
`::` scan of `pseudoElement`, and a zero count for `element`). -/
theorem step_ok {k : Kind} {b : SelectorBuilder} (v : String)
    (havoid : ∀ c ∈ avoidVal k, c ∉ b.value.data)
    (hel : k = Kind.element → b.elementCount = 0)
    (hcol : k = Kind.pseudoElement → b.value.data.count ':' ≤ 1) :
    SelectorBuilder.apply k b v =
      Except.ok ⟨b.value ++ renderPart (k, v),
        b.elementCount + (if k = Kind.element then 1 else 0)⟩ := by
  cases k with
  | element =>
    have h0 := hel rfl
    have h1 : strIncludes b.value "#" = false := hasSub_single_false (havoid '#' (by decide))
    have h2 : strIncludes b.value "." = false := hasSub_single_false (havoid '.' (by decide))
    have h3 : strIncludes b.value "[" = false := hasSub_single_false (havoid '[' (by decide))
    have h4 : strIncludes b.value ":" = false := hasSub_single_false (havoid ':' (by decide))
    have h5 : strIncludes b.value "::" = false := hasSub_pair_false (havoid ':' (by decide))
    show b.element v = _
    rw [element_eq]
    simp [h0, h1, h2, h3, h4, h5, renderPart]
  | id =>
    have h1 : strIncludes b.value "#" = false := hasSub_single_false (havoid '#' (by decide))
    have h2 : strIncludes b.value "." = false := hasSub_single_false (havoid '.' (by decide))
    have h3 : strIncludes b.value "[" = false := hasSub_single_false (havoid '[' (by decide))
    have h4 : strIncludes b.value ":" = false := hasSub_single_false (havoid ':' (by decide))
    have h5 : strIncludes b.value "::" = false := hasSub_pair_false (havoid ':' (by decide))
    show b.id v = _
    rw [id_eq]
    simp [h1, h2, h3, h4, h5, renderPart, String.append_assoc]
  | cls =>
    have h3 : strIncludes b.value "[" = false := hasSub_single_false (havoid '[' (by decide))
    have h4 : strIncludes b.value ":" = false := hasSub_single_false (havoid ':' (by decide))
    have h5 : strIncludes b.value "::" = false := hasSub_pair_false (havoid ':' (by decide))
    show b.«class» v = _
    rw [class_eq]
    simp [h3, h4, h5, renderPart, String.append_assoc]
  | attr =>
    have h4 : strIncludes b.value ":" = false := hasSub_single_false (havoid ':' (by decide))
    have h5 : strIncludes b.value "::" = false := hasSub_pair_false (havoid ':' (by decide))
    show b.attr v = _
    rw [attr_eq]
    simp [h4, h5, renderPart, String.append_assoc]
  | pseudoClass =>
    have h5 : strIncludes b.value "::" = false := hasSub_pair_false (havoid ':' (by decide))
    show b.pseudoClass v = _
    rw [pseudoClass_eq]
    simp [h5, renderPart, String.append_assoc]
  | pseudoElement =>
    have h5 : strIncludes b.value "::" = false := hasSub_pair_false_of_count (hcol rfl)
    show b.pseudoElement v = _
    rw [pseudoElement_eq]
    simp [h5, renderPart, String.append_assoc]

/-- The marker characters a part of kind `k` contributes (besides the
closing bracket of an attribute and the fragment itself). -/
def markerChars : Kind → List Char
  | .element => []
  | .id => ['#']
  | .cls => ['.']
  | .attr => ['[']
  | .pseudoClass => [':']
  | .pseudoElement => [':']

theorem notin_render {k : Kind} {v : String} {c : Char}
    (hm : c ∉ markerChars k) (hbr : c ≠ ']') (hnv : c ∉ v.data) :
    c ∉ (renderPart (k, v)).data := by
  cases k with
  | element => rw [renderData_element]; exact hnv
  | id =>
    rw [renderData_id]
    intro h
    rcases List.mem_cons.mp h with h | h
    · exact hm (by rw [h]; decide)
    · exact hnv h
  | cls =>
    rw [renderData_cls]
    intro h
    rcases List.mem_cons.mp h with h | h
    · exact hm (by rw [h]; decide)
    · exact hnv h
  | attr =>
    rw [renderData_attr]
    intro h
    rcases List.mem_cons.mp h with h | h
    · exact hm (by rw [h]; decide)
    · rcases List.mem_append.mp h with h | h
      · exact hnv h
      · exact hbr (List.mem_singleton.mp h)
  | pseudoClass =>
    rw [renderData_pc]
    intro h
    rcases List.mem_cons.mp h with h | h
    · exact hm (by rw [h]; decide)
    · exact hnv h
  | pseudoElement =>
    rw [renderData_pe]
    intro h
    rcases List.mem_cons.mp h with h | h
    · exact hm (by rw [h]; decide)
    · rcases List.mem_cons.mp h with h | h
      · exact hm (by rw [h]; decide)
      · exact hnv h

theorem notin_render_all {k k' : Kind} {v : String} {c : Char}
    (hsub : ∀ x ∈ avoidVal k', x ∉ markerChars k ∧ x ≠ ']' ∧ x ∈ avoidChars k)
    (hv : ∀ c' ∈ avoidChars k, c' ∉ v.data)
    (hc : c ∈ avoidVal k') : c ∉ (renderPart (k, v)).data := by
  obtain ⟨h1, h2, h3⟩ := hsub c hc
  exact notin_render h1 h2 (hv c h3)

/-- What a rendered part of kind `k` adds never contains a character that
the scan of a strictly later kind `k'` will look for. -/
theorem renderPart_avoid {k k' : Kind} {v : String} {c : Char}
    (hlt : kindIndex k < kindIndex k') (hf : fragOk k v = true)
    (hc : c ∈ avoidVal k') : c ∉ (renderPart (k, v)).data := by
  have hv : ∀ c' ∈ avoidChars k, c' ∉ v.data := fun c' hc' => frag_notin hf hc'
  cases k <;> cases k' <;>
    first
      | exact absurd hlt (by decide)
      | exact notin_render_all (by decide) hv hc

/-- Colon count of a rendered part whose fragment is colon-free: one for a
pseudo-class part, zero for the four kinds before it. -/
theorem renderPart_colon_count {k : Kind} {v : String} (hf : fragOk k v = true)
    (hk : kindIndex k ≤ 4) :
    (renderPart (k, v)).data.count ':' = (if k = Kind.pseudoClass then 1 else 0) := by
  have hv : (':' : Char) ∉ v.data → v.data.count ':' = 0 := fun h => List.count_eq_zero.mpr h
  cases k with
  | element => rw [renderData_element]; simp [hv (frag_notin hf (by decide))]
  | id => rw [renderData_id]; simp [List.count_cons, hv (frag_notin hf (by decide))]
  | cls => rw [renderData_cls]; simp [List.count_cons, hv (frag_notin hf (by decide))]
  | attr =>
    rw [renderData_attr]
    simp [List.count_cons, List.count_append, hv (frag_notin hf (by decide))]
  | pseudoClass =>
    rw [renderData_pc]
    simp [List.count_cons, hv (frag_notin hf (by decide))]
  | pseudoElement => exact absurd hk (by decide)

/-- An increasing chain of appends whose fragments satisfy `fragOk`
succeeds from any state satisfying the candidates' preconditions, and the
accumulated value grows by the concatenation of the rendered parts. -/
theorem chain_ok (ops : List (Kind × String)) :
    ∀ b : SelectorBuilder,
    ops.Pairwise (fun p q => kindIndex p.1 < kindIndex q.1) →
    (∀ p ∈ ops, fragOk p.1 p.2 = true) →
    (∀ p ∈ ops, ∀ c ∈ avoidVal p.1, c ∉ b.value.data) →
    (Kind.element ∈ ops.map Prod.fst → b.elementCount = 0) →
    (Kind.pseudoElement ∈ ops.map Prod.fst → b.value.data.count ':' ≤ 1) →
    ∃ b', runAppends b ops = Except.ok b' ∧ b'.value = b.value ++ concatParts ops := by
  induction ops with
  | nil =>
    intro b _ _ _ _ _
    refine ⟨b, rfl, ?_⟩
    show b.value = b.value ++ ""
    rw [String.append_empty]
  | cons p ps ih =>
    intro b hpw hfrag havoid hel hcol
    obtain ⟨k, v⟩ := p
    obtain ⟨hhead, htail⟩ := List.pairwise_cons.mp hpw
    have hfh : fragOk k v = true := hfrag (k, v) (List.mem_cons_self _ _)
    have hstep := step_ok (k := k) (b := b) v
      (havoid (k, v) (List.mem_cons_self _ _))
      (fun hk => hel (by simp [hk]))
      (fun hk => hcol (by simp [hk]))
    set b₁ : SelectorBuilder :=
      ⟨b.value ++ renderPart (k, v),
        b.elementCount + (if k = Kind.element then 1 else 0)⟩ with hb₁
    have hval₁ : b₁.value.data = b.value.data ++ (renderPart (k, v)).data := by
      rw [hb₁, strData_append]
    have havoid' : ∀ q ∈ ps, ∀ c ∈ avoidVal q.1, c ∉ b₁.value.data := by
      intro q hq c hc
      rw [hval₁]
      intro hmem
      rcases List.mem_append.mp hmem with hmem | hmem
      · exact havoid q (List.mem_cons_of_mem _ hq) c hc hmem
      · exact renderPart_avoid (hhead q hq) hfh hc hmem
    have hel' : Kind.element ∈ ps.map Prod.fst → b₁.elementCount = 0 := by
      intro hmem
      obtain ⟨q, hq, hq1⟩ := List.mem_map.mp hmem
      have := hhead q hq
      rw [hq1] at this
      exact absurd this (Nat.not_lt_zero _)
    have hcol' : Kind.pseudoElement ∈ ps.map Prod.fst → b₁.value.data.count ':' ≤ 1 := by
      intro hmem
      obtain ⟨q, hq, hq1⟩ := List.mem_map.mp hmem
      have hklt := hhead q hq
      rw [hq1] at hklt
      have hk4 : kindIndex k ≤ 4 := by
        have h5 : kindIndex Kind.pseudoElement = 5 := rfl
        rw [h5] at hklt
        have hklt2 : kindIndex k < 5 := hklt
        omega
      rw [hval₁, List.count_append, renderPart_colon_count hfh hk4]
      by_cases hkpc : k = Kind.pseudoClass
      · have : (':' : Char) ∉ b.value.data := by
          subst hkpc
          exact havoid (Kind.pseudoClass, v) (List.mem_cons_self _ _) ':'
            (show (':' : Char) ∈ avoidVal Kind.pseudoClass by decide)
        rw [List.count_eq_zero.mpr this]
        simp [hkpc]
      · have hb : b.value.data.count ':' ≤ 1 :=
          hcol (by rw [List.map_cons]; exact List.mem_cons_of_mem _ hmem)
        simp [hkpc]
        omega
    obtain ⟨b', hrun, hval⟩ := ih b₁ htail
      (fun q hq => hfrag q (List.mem_cons_of_mem _ hq)) havoid' hel' hcol'
    refine ⟨b', ?_, ?_⟩
    · rw [runAppends]
      simp only [hstep]
      exact hrun
    · rw [hval, hb₁]
      show _ = b.value ++ (renderPart (k, v) ++ concatParts ps)
      rw [String.append_assoc]

/-! ### Small helpers for the claim proofs -/

theorem single_notin {s : List Char} {c : Char} (h : hasSub [c] s = false) : c ∉ s := by
  intro hm
  rw [hasSub_singleton.mpr hm] at h
  exact absurd h (by simp)

theorem single_false_append {c : Char} {L1 L2 : List Char}
    (h1 : c ∉ L1) (h2 : c ∉ L2) : hasSub [c] (L1 ++ L2) = false := by
  apply hasSub_single_false
  intro h
  rcases List.mem_append.mp h with h | h
  · exact h1 h
  · exact h2 h

theorem dataHash : ("#" : String).data = ['#'] := rfl

theorem dataDot : ("." : String).data = ['.'] := rfl

theorem dataLbrack : ("[" : String).data = ['['] := rfl

theorem dataRbrack : ("]" : String).data = [']'] := rfl

theorem dataColon : (":" : String).data = [':'] := rfl

theorem dataColon2 : ("::" : String).data = [':', ':'] := rfl

theorem str_empty_append (s : String) : "" ++ s = s := by
  cases s
  rfl

theorem isPre_single_mem {c : Char} {l : List Char} (h : isPre [c] l = true) : c ∈ l := by
  cases l with
  | nil => rw [isPre_cons_nil] at h; exact absurd h (by simp)
  | cons b t =>
    rw [isPre_cons_cons, Bool.and_eq_true, beq_iff_eq] at h
    exact List.mem_cons.mpr (Or.inl h.1)

/-! ### Claims -/

/-- C1, counterexample: the claim counts `id` among the repeatable kinds,
but a second `id` on a builder that already holds an id part throws the
duplicate error (`isIdOrPseudoRepeats` scans for `#`). -/
theorem C1_counterexample :
    SelectorBuilder.id cssSelectorBuilder "x" = Except.ok ⟨"#x", 0⟩ ∧
    SelectorBuilder.id ⟨"#x", 0⟩ "y" = Except.error SelectorError.duplicateUniquePart :=
  ⟨rfl, rfl⟩

/-- C1, amended: for marker-free fragments (and a value not dangling on a
lone `:`), repeating class, attribute, or pseudo-class immediately after a
successful append of the same kind succeeds; repeating id fails with the
duplicate-part error. -/
theorem C1_amended_repeat (b : SelectorBuilder) (v w : String)
    (hv : fragOk Kind.element v = true)
    (hlast : b.value.data.getLast? ≠ some ':') :
    (∀ b₁, b.«class» v = Except.ok b₁ → ∃ b₂, b₁.«class» w = Except.ok b₂) ∧
    (∀ b₁, b.attr v = Except.ok b₁ → ∃ b₂, b₁.attr w = Except.ok b₂) ∧
    (∀ b₁, b.pseudoClass v = Except.ok b₁ → ∃ b₂, b₁.pseudoClass w = Except.ok b₂) ∧
    (∀ b₁, b.id v = Except.ok b₁ →
      b₁.id w = Except.error SelectorError.duplicateUniquePart) := by
  have hvb : (('[' : Char) ∉ v.data) ∧ (('.' : Char) ∉ v.data) ∧
      ((':' : Char) ∉ v.data) ∧ (('#' : Char) ∉ v.data) :=
    ⟨frag_notin hv (by decide), frag_notin hv (by decide),
     frag_notin hv (by decide), frag_notin hv (by decide)⟩
  refine ⟨?_, ?_, ?_, ?_⟩
  · -- class then class
    intro b₁ h
    rw [class_eq] at h
    split at h
    · exact absurd h (by simp)
    · rename_i hcond
      rw [Bool.or_eq_true, Bool.or_eq_true] at hcond
      push_neg at hcond
      obtain ⟨⟨hbrk, hcol⟩, hcc⟩ := hcond
      injection h with h
      subst h
      have hdata : (b.value ++ "." ++ v).data = (b.value.data ++ ['.']) ++ v.data := by
        rw [strData_append, strData_append, dataDot]
      have hnb : ('[' : Char) ∉ b.value.data :=
        single_notin (Bool.not_eq_true _ ▸ hbrk)
      have hnc : (':' : Char) ∉ b.value.data :=
        single_notin (Bool.not_eq_true _ ▸ hcol)
      have h1 : strIncludes (b.value ++ "." ++ v) "[" = false := by
        show hasSub ['['] (b.value ++ "." ++ v).data = false
        rw [hdata]
        exact single_false_append (single_false_append hnb (by decide) |> single_notin) hvb.1
      have h2 : strIncludes (b.value ++ "." ++ v) ":" = false := by
        show hasSub [':'] (b.value ++ "." ++ v).data = false
        rw [hdata]
        exact single_false_append (single_false_append hnc (by decide) |> single_notin)
          hvb.2.2.1
      have h3 : strIncludes (b.value ++ "." ++ v) "::" = false := by
        show hasSub [':', ':'] (b.value ++ "." ++ v).data = false
        apply hasSub_pair_false
        intro hm
        rw [hdata] at hm
        rcases List.mem_append.mp hm with hm | hm
        · rcases List.mem_append.mp hm with hm | hm
          · exact hnc hm
          · exact absurd (List.mem_singleton.mp hm) (by decide)
        · exact hvb.2.2.1 hm
      refine ⟨⟨(b.value ++ "." ++ v) ++ "." ++ w, b.elementCount⟩, ?_⟩
      rw [class_eq]
      simp [h1, h2, h3]
  · -- attr then attr
    intro b₁ h
    rw [attr_eq] at h
    split at h
    · exact absurd h (by simp)
    · rename_i hcond
      rw [Bool.or_eq_true] at hcond
      push_neg at hcond
      have hcol : strIncludes b.value ":" ≠ true := hcond.1
      injection h with h
      subst h
      have hnc : (':' : Char) ∉ b.value.data :=
        single_notin (Bool.not_eq_true _ ▸ hcol)
      have hdata : (b.value ++ "[" ++ v ++ "]").data =
          ((b.value.data ++ ['[']) ++ v.data) ++ [']'] := by
        rw [strData_append, strData_append, strData_append, dataLbrack, dataRbrack]
      have hnotc : (':' : Char) ∉ (b.value ++ "[" ++ v ++ "]").data := by
        rw [hdata]
        intro hm
        rcases List.mem_append.mp hm with hm | hm
        · rcases List.mem_append.mp hm with hm | hm
          · rcases List.mem_append.mp hm with hm | hm
            · exact hnc hm
            · exact absurd (List.mem_singleton.mp hm) (by decide)
          · exact hvb.2.2.1 hm
        · exact absurd (List.mem_singleton.mp hm) (by decide)
      have h1 : strIncludes (b.value ++ "[" ++ v ++ "]") ":" = false :=
        hasSub_single_false hnotc
      have h2 : strIncludes (b.value ++ "[" ++ v ++ "]") "::" = false :=
        hasSub_pair_false hnotc
      refine ⟨⟨(b.value ++ "[" ++ v ++ "]") ++ "[" ++ w ++ "]", b.elementCount⟩, ?_⟩
      rw [attr_eq]
      simp [h1, h2]
  · -- pseudoClass then pseudoClass
    intro b₁ h
    rw [pseudoClass_eq] at h
    split at h
    · exact absurd h (by simp)
    · rename_i hcond
      injection h with h
      subst h
      have hpair : strIncludes (b.value ++ ":" ++ v) "::" = false := by
        show hasSub [':', ':'] (b.value ++ ":" ++ v).data = false
        have hdata : (b.value ++ ":" ++ v).data = b.value.data ++ (':' :: v.data) := by
          rw [strData_append, strData_append, dataColon, List.append_assoc]
          rfl
        rw [hdata]
        cases hx : hasSub [':', ':'] (b.value.data ++ (':' :: v.data))
        · rfl
        · exfalso
          rcases hasSub_pair_append hx with h' | h' | ⟨h1, _⟩
          · exact hcond h'
          · rw [hasSub_cons, Bool.or_eq_true] at h'
            rcases h' with h' | h'
            · rw [isPre_cons_cons, Bool.and_eq_true] at h'
              exact hvb.2.2.1 (isPre_single_mem h'.2)
            · exact hvb.2.2.1 (hasSub_pair_mem h')
          · exact hlast h1
      refine ⟨⟨(b.value ++ ":" ++ v) ++ ":" ++ w, b.elementCount⟩, ?_⟩
      rw [pseudoClass_eq]
      simp [hpair]
  · -- id then id
    intro b₁ h
    rw [id_eq] at h
    split at h
    · exact absurd h (by simp)
    · split at h
      · exact absurd h (by simp)
      · injection h with h
        subst h
        have hmem : ('#' : Char) ∈ (b.value ++ "#" ++ v).data := by
          rw [strData_append, strData_append, dataHash]
          exact List.mem_append.mpr (Or.inl (List.mem_append.mpr (Or.inr (by decide))))
        have h1 : strIncludes (b.value ++ "#" ++ v) "#" = true := hasSub_singleton.mpr hmem
        rw [id_eq]
        simp [h1]

/-- C1, witness for the amended theorem at `b` the facade root, `v = "a"`,
`w = "b"`. -/
theorem C1_amended_repeat_witness :
    (∃ b₂, SelectorBuilder.«class» ⟨".a", 0⟩ "b" = Except.ok b₂) ∧
    (∃ b₂, SelectorBuilder.attr ⟨"[a]", 0⟩ "b" = Except.ok b₂) ∧
    (∃ b₂, SelectorBuilder.pseudoClass ⟨":a", 0⟩ "b" = Except.ok b₂) ∧
    SelectorBuilder.id ⟨"#a", 0⟩ "b" = Except.error SelectorError.duplicateUniquePart := by
  have h := C1_amended_repeat cssSelectorBuilder "a" "b" (by decide) (by decide)
  exact ⟨h.1 ⟨".a", 0⟩ rfl, h.2.1 ⟨"[a]", 0⟩ rfl, h.2.2.1 ⟨":a", 0⟩ rfl,
    h.2.2.2 ⟨"#a", 0⟩ rfl⟩

/-- C2, counterexample: `stringify` mutates its receiver: the element
count of an instance holding one element part is 1 before the call and 0
after it, so the observable fields are not preserved. -/
theorem C2_counterexample :
    (⟨"div", 1⟩ : SelectorBuilder).elementCount = 1 ∧
    (SelectorBuilder.stringify ⟨"div", 1⟩).2 = ⟨"div", 0⟩ ∧
    (SelectorBuilder.stringify ⟨"div", 1⟩).2 ≠ ⟨"div", 1⟩ := by
  refine ⟨rfl, rfl, ?_⟩
  intro h
  have h2 := congrArg SelectorBuilder.elementCount h
  simp [SelectorBuilder.stringify] at h2

/-- C2, amended: the part-appending operations build fresh instances and
leave every existing instance alone, but `stringify` zeroes the receiver's
`elementCount` (keeping its value), and `combine` empties the receiver's
`value` (keeping its count) and zeroes the `elementCount` of both argument
builders via their `stringify` calls. -/
theorem C2_amended (b s1 s2 : SelectorBuilder) (tok : String) :
    (b.stringify).2 = ⟨b.value, 0⟩ ∧
    (b.combine s1 tok s2).2.1 = ⟨"", b.elementCount⟩ ∧
    (b.combine s1 tok s2).2.2.1 = ⟨s1.value, 0⟩ ∧
    (b.combine s1 tok s2).2.2.2 = ⟨s2.value, 0⟩ :=
  ⟨rfl, rfl, rfl, rfl⟩

/-- C3, counterexample: after `stringify` has been invoked on the instance
holding the element part, its element count is back to 0 and a second
`element` succeeds, so the claim's "whatever other operations (including
stringify)" is too strong. -/
theorem C3_counterexample :
    SelectorBuilder.element cssSelectorBuilder "div" = Except.ok ⟨"div", 1⟩ ∧
    (SelectorBuilder.stringify ⟨"div", 1⟩).2 = ⟨"div", 0⟩ ∧
    SelectorBuilder.element ⟨"div", 0⟩ "span" = Except.ok ⟨"divspan", 1⟩ :=
  ⟨rfl, rfl, rfl⟩

/-- C3, amended: along a lineage made only of part-appending calls from
the fresh root (no intervening `stringify` or `combine` on the instances),
a further `element` after an element part, or a further `pseudoElement`
after a pseudo-element part, fails with the duplicate-part error. -/
theorem C3_amended (ops : List (Kind × String)) (b' : SelectorBuilder) (v : String)
    (hrun : runAppends cssSelectorBuilder ops = Except.ok b') :
    (Kind.element ∈ ops.map Prod.fst →
      b'.element v = Except.error SelectorError.duplicateUniquePart) ∧
    (Kind.pseudoElement ∈ ops.map Prod.fst →
      b'.pseudoElement v = Except.error SelectorError.duplicateUniquePart) := by
  constructor
  · intro hmem
    have hpos := runAppends_element_pos hrun hmem
    rw [element_eq]
    simp [hpos]
  · intro hmem
    have hinc := runAppends_pe_includes hrun hmem
    rw [pseudoElement_eq]
    simp [hinc]

/-- C3, witness: the lineage `element('a').pseudoElement('b')` rejects
both a second element and a second pseudo-element. -/
theorem C3_amended_witness :
    runAppends cssSelectorBuilder [(Kind.element, "a"), (Kind.pseudoElement, "b")] =
      Except.ok ⟨"a::b", 1⟩ ∧
    SelectorBuilder.element ⟨"a::b", 1⟩ "z" = Except.error SelectorError.duplicateUniquePart ∧
    SelectorBuilder.pseudoElement ⟨"a::b", 1⟩ "z" =
      Except.error SelectorError.duplicateUniquePart := by
  have hrun : runAppends cssSelectorBuilder [(Kind.element, "a"), (Kind.pseudoElement, "b")] =
      Except.ok ⟨"a::b", 1⟩ := rfl
  have h := C3_amended [(Kind.element, "a"), (Kind.pseudoElement, "b")] ⟨"a::b", 1⟩ "z" hrun
  exact ⟨hrun, h.1 (by decide), h.2 (by decide)⟩

/-- C4: `combine` is total (no error path in the embedding), reproduces
the combinator token verbatim between single spaces, and the fresh
instance carries the joined renders with element count 0. -/
theorem C4_combine (b A B : SelectorBuilder) (tok : String) :
    (b.combine A tok B).1.value = (A.stringify).1 ++ " " ++ tok ++ " " ++ (B.stringify).1 ∧
    (b.combine A tok B).1.elementCount = 0 :=
  ⟨rfl, rfl⟩

/-- C5, counterexample: the duplicate check runs first, so on a value that
already contains both the id marker and a later marker (`#a.b`), `id`
fails with the duplicate error, not `OutOfOrderError`, although a
later-kind marker is present — the "exactly when" of the claim fails. -/
theorem C5_counterexample :
    strIncludes (⟨"#a.b", 0⟩ : SelectorBuilder).value "." = true ∧
    SelectorBuilder.id ⟨"#a.b", 0⟩ "x" = Except.error SelectorError.duplicateUniquePart ∧
    SelectorBuilder.id ⟨"#a.b", 0⟩ "x" ≠ Except.error SelectorError.outOfOrder := by
  refine ⟨by decide, rfl, ?_⟩
  intro h
  rw [show SelectorBuilder.id ⟨"#a.b", 0⟩ "x" =
    Except.error SelectorError.duplicateUniquePart from rfl] at h
  exact absurd h (by simp)

/-- C5, amended: a part-appending call fails with `OutOfOrderError`
exactly when the duplicate condition does not hold and the accumulated
value contains a marker of a kind strictly after the candidate kind. -/
theorem C5_amended (k : Kind) (b : SelectorBuilder) (v : String) :
    SelectorBuilder.apply k b v = Except.error SelectorError.outOfOrder ↔
      (dupCond k b = false ∧ laterMarkerPresent k b = true) := by
  cases k with
  | element =>
    show b.element v = _ ↔ _
    rw [element_eq]
    by_cases hd : 0 < b.elementCount <;>
      cases h1 : strIncludes b.value "#" <;> cases h2 : strIncludes b.value "." <;>
      cases h3 : strIncludes b.value "[" <;> cases h4 : strIncludes b.value ":" <;>
      cases h5 : strIncludes b.value "::" <;>
      simp [hd, h1, h2, h3, h4, h5, dupCond, laterMarkerPresent, elementsSymbols, kindIndex,
        List.any_cons, List.any_nil]
  | id =>
    show b.id v = _ ↔ _
    rw [id_eq]
    cases h1 : strIncludes b.value "#" <;> cases h2 : strIncludes b.value "." <;>
      cases h3 : strIncludes b.value "[" <;> cases h4 : strIncludes b.value ":" <;>
      cases h5 : strIncludes b.value "::" <;>
      simp [h1, h2, h3, h4, h5, dupCond, laterMarkerPresent, elementsSymbols, kindIndex,
        List.any_cons, List.any_nil]
  | cls =>
    show b.«class» v = _ ↔ _
    rw [class_eq]
    cases h3 : strIncludes b.value "[" <;> cases h4 : strIncludes b.value ":" <;>
      cases h5 : strIncludes b.value "::" <;>
      simp [h3, h4, h5, dupCond, laterMarkerPresent, elementsSymbols, kindIndex,
        List.any_cons, List.any_nil]
  | attr =>
    show b.attr v = _ ↔ _
    rw [attr_eq]
    cases h4 : strIncludes b.value ":" <;> cases h5 : strIncludes b.value "::" <;>
      simp [h4, h5, dupCond, laterMarkerPresent, elementsSymbols, kindIndex,
        List.any_cons, List.any_nil]
  | pseudoClass =>
    show b.pseudoClass v = _ ↔ _
    rw [pseudoClass_eq]
    cases h5 : strIncludes b.value "::" <;>
      simp [h5, dupCond, laterMarkerPresent, elementsSymbols, kindIndex,
        List.any_cons, List.any_nil]
  | pseudoElement =>
    show b.pseudoElement v = _ ↔ _
    rw [pseudoElement_eq]
    cases h5 : strIncludes b.value "::" <;>
      simp [h5, dupCond, laterMarkerPresent, elementsSymbols, kindIndex,
        List.any_cons, List.any_nil]

/-- C6: whenever the duplicate condition holds (element with positive
count, or id / pseudo-element whose marker occurs in the value), the call
fails with the duplicate-part error — the duplicate check runs before the
order scan. -/
theorem C6_duplicate (k : Kind) (b : SelectorBuilder) (v : String)
    (h : dupCond k b = true) :
    SelectorBuilder.apply k b v = Except.error SelectorError.duplicateUniquePart := by
  cases k with
  | element =>
    show b.element v = _
    rw [element_eq]
    have hd : 0 < b.elementCount := of_decide_eq_true h
    simp [hd]
  | id =>
    show b.id v = _
    rw [id_eq]
    have hd : strIncludes b.value "#" = true := h
    simp [hd]
  | cls => exact absurd h (by simp [dupCond])
  | attr => exact absurd h (by simp [dupCond])
  | pseudoClass => exact absurd h (by simp [dupCond])
  | pseudoElement =>
    show b.pseudoElement v = _
    rw [pseudoElement_eq]
    have hd : strIncludes b.value "::" = true := h
    simp [hd]

/-- C6, witness: a second id on `#x`. -/
theorem C6_duplicate_witness :
    dupCond Kind.id ⟨"#x", 0⟩ = true ∧
    SelectorBuilder.apply Kind.id ⟨"#x", 0⟩ "y" =
      Except.error SelectorError.duplicateUniquePart :=
  ⟨by decide, C6_duplicate Kind.id ⟨"#x", 0⟩ "y" (by decide)⟩

/-- C7, counterexample: a chain in the fixed kind order (element, then id)
fails when the element fragment itself contains a marker character — the
claim cannot hold for every fragment string. -/
theorem C7_counterexample :
    runAppends cssSelectorBuilder [(Kind.element, "a:b"), (Kind.id, "x")] =
      Except.error SelectorError.outOfOrder := rfl

/-- C7, amended: a chain of appends from the fresh root with strictly
increasing kinds succeeds and renders the concatenation of markers and
fragments, provided each fragment contains no single-character marker of a
later kind (and a pseudo-class fragment no `:`); the fresh root renders
the empty string. -/
theorem C7_amended (ops : List (Kind × String))
    (hord : ops.Pairwise (fun p q => kindIndex p.1 < kindIndex q.1))
    (hfrag : ∀ p ∈ ops, fragOk p.1 p.2 = true) :
    (∃ b', runAppends cssSelectorBuilder ops = Except.ok b' ∧
      (b'.stringify).1 = concatParts ops) ∧
    (cssSelectorBuilder.stringify).1 = "" := by
  constructor
  · obtain ⟨b', hrun, hval⟩ := chain_ok ops cssSelectorBuilder hord hfrag
      (fun p hp c hc hmem => absurd hmem (List.not_mem_nil c))
      (fun _ => rfl)
      (fun _ => Nat.zero_le 1)
    refine ⟨b', hrun, ?_⟩
    show b'.value = _
    rw [hval]
    exact str_empty_append _
  · rfl

/-- C7, witness: the spec's own example chain
`element('a').attr('href$=".png"').pseudoClass('focus')`. -/
theorem C7_amended_witness :
    (∃ b', runAppends cssSelectorBuilder
        [(Kind.element, "a"), (Kind.attr, "href$=\".png\""), (Kind.pseudoClass, "focus")] =
          Except.ok b' ∧
      (b'.stringify).1 = concatParts
        [(Kind.element, "a"), (Kind.attr, "href$=\".png\""), (Kind.pseudoClass, "focus")]) ∧
    (cssSelectorBuilder.stringify).1 = "" :=
  C7_amended _ (by decide) (by decide)

/-- C8: render is idempotent — a second `stringify` on the instance state
left by the first returns the same string (the first call only zeroes the
element count, never the value). -/
theorem C8_stringify_idempotent (b : SelectorBuilder) :
    ((b.stringify).2.stringify).1 = (b.stringify).1 := rfl

/-- C9: `combine` empties the receiver's own value; the joined string
lives only in the returned fresh instance (and differs from the
receiver's now-empty value). -/
theorem C9_combine_resets_receiver (b s1 s2 : SelectorBuilder) (tok : String)
    (h : b.value ≠ "") :
    (b.combine s1 tok s2).2.1.value = "" ∧
    (b.combine s1 tok s2).1.value =
      (s1.stringify).1 ++ " " ++ tok ++ " " ++ (s2.stringify).1 ∧
    (b.combine s1 tok s2).2.1.value ≠ (b.combine s1 tok s2).1.value := by
  refine ⟨rfl, rfl, ?_⟩
  intro heq
  have hlen := congrArg String.length heq
  rw [show (b.combine s1 tok s2).2.1.value = "" from rfl] at hlen
  rw [show (b.combine s1 tok s2).1.value =
    s1.value ++ " " ++ tok ++ " " ++ s2.value from rfl] at hlen
  rw [String.length_append, String.length_append, String.length_append,
    String.length_append] at hlen
  rw [show ("" : String).length = 0 from rfl, show (" " : String).length = 1 from rfl] at hlen
  omega

/-- C9, witness at `b = ⟨"x", 0⟩`. -/
theorem C9_combine_resets_receiver_witness :
    (SelectorBuilder.combine ⟨"x", 0⟩ ⟨"a", 0⟩ "+" ⟨"b", 0⟩).2.1.value = "" ∧
    (SelectorBuilder.combine ⟨"x", 0⟩ ⟨"a", 0⟩ "+" ⟨"b", 0⟩).1.value =
      ((⟨"a", 0⟩ : SelectorBuilder).stringify).1 ++ " " ++ "+" ++ " " ++
        ((⟨"b", 0⟩ : SelectorBuilder).stringify).1 ∧
    (SelectorBuilder.combine ⟨"x", 0⟩ ⟨"a", 0⟩ "+" ⟨"b", 0⟩).2.1.value ≠
      (SelectorBuilder.combine ⟨"x", 0⟩ ⟨"a", 0⟩ "+" ⟨"b", 0⟩).1.value :=
  C9_combine_resets_receiver ⟨"x", 0⟩ ⟨"a", 0⟩ ⟨"b", 0⟩ "+" (by decide)

/-- C10: the duplicate scan reads the raw accumulated string, so after an
attribute whose fragment contains `#`, any `id` call fails with the
duplicate-part error although no id part was ever appended. -/
theorem C10_raw_scan (v : String) :
    SelectorBuilder.attr cssSelectorBuilder "data-x=\"#1\"" =
      Except.ok ⟨"[data-x=\"#1\"]", 0⟩ ∧
    SelectorBuilder.id ⟨"[data-x=\"#1\"]", 0⟩ v =
      Except.error SelectorError.duplicateUniquePart := by
  constructor
  · rfl
  · rw [id_eq]
    have h1 : strIncludes "[data-x=\"#1\"]" "#" = true := by decide
    simp [h1]

end CoreJs101

